import Mathlib

/-!
Verification of `furious/test_stubs/appengine/queues.py`.

The module drains App Engine testbed task queues and executes the tasks.
We embed it shallowly: the external task-queue service stub is a value of
`TaskqService` (queue descriptors plus per-queue pending-task lists), the
external task processor (`process_async_task`) and the effect that executing
a task has on the queue service are function parameters, Python's module-level
pseudo-random generator is an explicit state machine parameter (`RandGen`),
and `base64.b64decode` is an abstract function parameter.  Fallible Python
code (KeyError and friends) returns `Option`.
-/

namespace Furious

/-- A queue description as returned by `taskq_service.GetQueues()`: a dict
with at least a `name` and usually a `mode` key (`'push'` or `'pull'`).
`mode = none` models a descriptor dict without a `mode` key. -/
structure QueueDesc where
  name : String
  mode : Option String
deriving DecidableEq, Repr

/-- A task in the dict form returned by `taskq_service.GetTasks()`.  Each
`Option` field `none` models the absence of that dict key (so `task.get(k)`
is `none` and `task[k]` raises).  `body` holds the base64-encoded body. -/
structure TaskDict where
  name : Option String
  body : Option String
  payload : Option String
  headers : List (String × String)
  method : Option String
  url : Option String
deriving DecidableEq, Repr

/-- A native `taskqueue.Task` object as constructed by `add_tasks`. -/
structure Task where
  payload : String
  name : Option String
  method : Option String
  url : Option String
deriving DecidableEq, Repr

/-- An entry of the `task_dict` argument of `add_tasks`: either already a
native `taskqueue.Task` instance or a dict as returned by `GetTasks()`. -/
inductive TaskItem where
  | native (t : Task)
  | dict (d : TaskDict)
deriving DecidableEq, Repr

/-- The external task-queue service stub: the queue descriptors returned by
`GetQueues()` and, for each queue name, the list of pending tasks returned
by `GetTasks(queue_name)` (association list, first entry wins). -/
structure TaskqService where
  queues : List QueueDesc
  contents : List (String × List TaskDict)
deriving DecidableEq, Repr

/-- Replace the first entry for key `q` in an association list (append a new
entry when none exists). -/
def setEntry : List (String × List TaskDict) → String → List TaskDict → List (String × List TaskDict)
  | [], q, ts => [(q, ts)]
  | (k, v) :: rest, q, ts =>
      if k = q then (q, ts) :: rest else (k, v) :: setEntry rest q ts

/-- `taskq_service.GetTasks(queue_name)`: the pending tasks of a queue. -/
def getTasks (st : TaskqService) (queue_name : String) : List TaskDict :=
  ((st.contents.find? (fun p => p.1 = queue_name)).map (fun p => p.2)).getD []

/-- `taskq_service.FlushQueue(queue_name)`: remove every pending task. -/
def flushQueue (st : TaskqService) (queue_name : String) : TaskqService :=
  { st with contents := setEntry st.contents queue_name [] }

/-- `queue_service.DeleteTask(queue_name, task_name)`: remove the task(s)
with the given name from the queue. -/
def deleteTask (st : TaskqService) (queue_name : String) (task_name : String) : TaskqService :=
  { st with
    contents := setEntry st.contents queue_name
      ((getTasks st queue_name).filter (fun t => ¬ t.name = some task_name)) }

/-- The state `_execute_task` may change through `process_async_task` is the
queue service itself (executed tasks can enqueue follow-on tasks); an
`ExecEffect` is that state transformer. -/
def ExecEffect : Type := TaskDict → TaskqService → TaskqService

/-- `get_queue_names(taskq_service)`: the names of all queues. -/
def get_queue_names (st : TaskqService) : List String :=
  st.queues.map (fun description => description.name)

/-- `get_push_queue_names(taskq_service)`: names of queues whose descriptor
has `mode == 'push'`. -/
def get_push_queue_names (st : TaskqService) : List String :=
  (st.queues.filter (fun description => description.mode = some "push")).map
    (fun description => description.name)

/-- `get_pull_queue_names(taskq_service)`: names of queues whose descriptor
has `mode == 'pull'`. -/
def get_pull_queue_names (st : TaskqService) : List String :=
  (st.queues.filter (fun description => description.mode = some "pull")).map
    (fun description => description.name)

/-- `run_queue(taskq_service, queue_name)`: fetch the queue's tasks, flush
the queue, then execute each fetched task, counting them.  Besides the
returned `num_processed` we expose the executed-task trace and the final
service state. -/
def run_queue (effect : ExecEffect) (taskq_service : TaskqService) (queue_name : String) :
    Nat × List TaskDict × TaskqService :=
  let tasks := getTasks taskq_service queue_name
  let st1 := flushQueue taskq_service queue_name
  tasks.foldl
    (fun acc task => (acc.1 + 1, acc.2.1 ++ [task], effect task acc.2.2))
    (0, [], st1)

/-- Executing a list of tasks in order (the loop body of `run_queue`,
state component only). -/
def execList (effect : ExecEffect) (tasks : List TaskDict) (st : TaskqService) : TaskqService :=
  tasks.foldl (fun s task => effect task s) st

/-- `_run(taskq_service, queue_names)`: one pass running `run_queue` over
every queue name, summing the processed counts. -/
def _run (effect : ExecEffect) (st : TaskqService) (queue_names : List String) :
    Nat × List TaskDict × TaskqService :=
  queue_names.foldl
    (fun acc queue_name =>
      let r := run_queue effect acc.2.2 queue_name
      (acc.1 + r.1, acc.2.1 ++ r.2.1, r.2.2))
    (0, [], st)

/-- The `if max_iterations and iterations >= max_iterations` test of `run`:
`max_iterations` must be truthy (not `None`, not `0`). -/
def maxItReached (max_iterations : Option Nat) (iterations : Nat) : Bool :=
  match max_iterations with
  | none => false
  | some m => decide (m ≠ 0) && decide (iterations ≥ m)

/-- The `while processed:` loop of `run`.  `go` is the truthiness of the
Python variable `processed`; `fuel` bounds the number of iterations we
unfold (the Python loop may not terminate), `none` meaning fuel ran out. -/
def runLoopAux (effect : ExecEffect) (queue_names : List String) (max_iterations : Option Nat) :
    Nat → Nat → Nat → List TaskDict → TaskqService → Bool →
    Option (Nat × Nat × List TaskDict × TaskqService)
  | _, iterations, tasks_processed, trace, st, false =>
      some (iterations, tasks_processed, trace, st)
  | 0, _, _, _, _, true => none
  | fuel + 1, iterations, tasks_processed, trace, st, true =>
      let r := _run effect st queue_names
      let iterations' := iterations + 1
      let tasks' := tasks_processed + r.1
      let trace' := trace ++ r.2.1
      if maxItReached max_iterations iterations' then
        some (iterations', tasks', trace', r.2.2)
      else
        runLoopAux effect queue_names max_iterations fuel iterations' tasks' trace' r.2.2
          (decide (r.1 ≠ 0))

/-- `run(taskq_service, queue_names=None, max_iterations=None)`.  The result
is `(iterations, tasks_processed, executed trace, final state)`; `queue_names`
is `none` when omitted (Python `None`). -/
def run (effect : ExecEffect) (st : TaskqService) (queue_names : Option (List String))
    (max_iterations : Option Nat) (fuel : Nat) :
    Option (Nat × Nat × List TaskDict × TaskqService) :=
  let qnames :=
    match queue_names with
    | none => get_push_queue_names st
    | some [] => get_push_queue_names st
    | some qs => qs
  let go :=
    match max_iterations with
    | none => true
    | some m => decide (0 < m)
  runLoopAux effect qnames max_iterations fuel 0 0 [] st go

/-- `task_dict[queue_name].extend(tasks)` on a `defaultdict(list)`. -/
def dictExtend (d : List (String × List TaskDict)) (queue_name : String)
    (tasks : List TaskDict) : List (String × List TaskDict) :=
  match d.find? (fun p => p.1 = queue_name) with
  | some existing => setEntry d queue_name (existing.2 ++ tasks)
  | none => d ++ [(queue_name, tasks)]

/-- `get_tasks(taskq_service, queue_names=None)`: all tasks per queue. -/
def get_tasks (st : TaskqService) (queue_names : Option (List String)) :
    List (String × List TaskDict) :=
  let qnames :=
    match queue_names with
    | none => get_queue_names st
    | some [] => get_queue_names st
    | some qs => qs
  qnames.foldl (fun d queue_name => dictExtend d queue_name (getTasks st queue_name)) []

/-- The loop body of `purge_tasks`: count each queue's pending tasks, then
flush it, threading the service state. -/
def purgeGo : List String → Nat × TaskqService → Nat × TaskqService
  | [], acc => acc
  | queue_name :: rest, (num_tasks, st) =>
      purgeGo rest (num_tasks + (getTasks st queue_name).length, flushQueue st queue_name)

/-- `purge_tasks(taskq_service, queue_names=None)`: count and flush. -/
def purge_tasks (st : TaskqService) (queue_names : Option (List String)) :
    Nat × TaskqService :=
  let qnames :=
    match queue_names with
    | none => get_queue_names st
    | some [] => get_queue_names st
    | some qs => qs
  purgeGo qnames (0, st)

/-- The `queue_desc_dict` of `add_tasks`: `dict((d['name'], d) for d in descs)`,
where a later descriptor with the same name overwrites an earlier one. -/
def queueDescDict (descs : List QueueDesc) (queue_name : String) : Option QueueDesc :=
  descs.reverse.find? (fun d => d.name = queue_name)

/-- The dict-to-`Task` reconstruction inside the task loop of `add_tasks`:
payload is `task['payload']` when the key is present, else
`base64.b64decode(task.get('body'))` (raising, i.e. `none`, when `body` is
also absent); pull queues get `method='PULL'` and the dict's url, push
queues keep the dict's recorded method (and no url is passed). -/
def formatTaskFromDict (b64decode : String → String) (is_pullqueue : Bool)
    (task : TaskDict) : Option Task :=
  let payload? :=
    match task.payload with
    | some p => some p
    | none => task.body.map b64decode
  match payload? with
  | none => none
  | some payload =>
      if is_pullqueue then
        some { payload := payload, name := task.name, method := some "PULL", url := task.url }
      else
        some { payload := payload, name := task.name, method := task.method, url := none }

/-- One entry of the task loop of `add_tasks`: a native `taskqueue.Task` is
passed through unchanged, a dict is reconstructed. -/
def formatItem (b64decode : String → String) (is_pullqueue : Bool) :
    TaskItem → Option Task
  | TaskItem.native t => some t
  | TaskItem.dict d => formatTaskFromDict b64decode is_pullqueue d

/-- The `tasks_to_add` accumulation loop of `add_tasks`. -/
def tasksToAdd (b64decode : String → String) (is_pullqueue : Bool) :
    List TaskItem → Option (List Task)
  | [] => some []
  | item :: rest =>
      match formatItem b64decode is_pullqueue item with
      | none => none
      | some t => (tasksToAdd b64decode is_pullqueue rest).map (fun ts => t :: ts)

/-- The outer queue loop of `add_tasks`, accumulating `num_added` and the
list of tasks enqueued per queue (`queue.add(tasks_to_add)`). -/
def addTasksGo (b64decode : String → String) (descs : List QueueDesc) :
    List (String × List TaskItem) → Nat → Option (Nat × List (String × List Task))
  | [], num_added => some (num_added, [])
  | (queue_name, tasks) :: rest, num_added =>
      match queueDescDict descs queue_name with
      | none => none
      | some desc =>
          match desc.mode with
          | none => none
          | some m =>
              match tasksToAdd b64decode (decide (m = "pull")) tasks with
              | none => none
              | some ts =>
                  (addTasksGo b64decode descs rest
                      (if ts.isEmpty then num_added else num_added + ts.length)).map
                    (fun r => (r.1, (queue_name, ts) :: r.2))

/-- `add_tasks(taskq_service, task_dict)`: re-add tasks across queues;
returns `num_added` together with the native tasks enqueued per queue.
`none` models a raised KeyError / TypeError. -/
def add_tasks (b64decode : String → String) (st : TaskqService)
    (task_dict : List (String × List TaskItem)) :
    Option (Nat × List (String × List Task)) :=
  addTasksGo b64decode st.queues task_dict 0

/-- Python's module-level `random`, seeded by `random.seed`: an abstract
deterministic generator with state `σ`.  `randrange n` returns a number
below `n` (for `0 < n`), as the library guarantees. -/
structure RandGen (σ : Type) where
  seedFn : Nat → σ
  randrange : Nat → σ → Nat × σ
  randrange_lt : ∀ n s, 0 < n → (randrange n s).1 < n

/-- A placeholder queue descriptor for out-of-range list indexing (never
reached when indices come from `randrange`). -/
def junkDesc : QueueDesc := { name := "", mode := none }

/-- A placeholder task for out-of-range list indexing (never reached when
indices come from `randrange`). -/
def junkTask : TaskDict :=
  { name := none, body := none, payload := none, headers := [], method := none, url := none }

/-- `_fetch_random_task_from_queue(queue_service, queue_name)`: `None` when
the queue is empty, otherwise `random.choice(tasks)`, modelled as the task
at a `randrange`-drawn index.  (The fetched dicts are nonempty, so the
source's `if not task` guard never fires on them.) -/
def fetch_random_task_from_queue {σ : Type} (G : RandGen σ) (queue_service : TaskqService)
    (queue_name : String) (g : σ) : Option TaskDict × σ :=
  let tasks := getTasks queue_service queue_name
  if tasks.isEmpty then (none, g)
  else
    let r := G.randrange tasks.length g
    (some (tasks.getD r.1 junkTask), r.2)

/-- `_run_random_task_from_queue(queue_service, queue_name)`: fetch a random
task; when it has a truthy `name`, execute it, delete it by name and return
`True`; otherwise return `False`.  We also expose the executed task, the
generator state and the resulting service state. -/
def run_random_task_from_queue {σ : Type} (G : RandGen σ) (effect : ExecEffect)
    (queue_service : TaskqService) (queue_name : String) (g : σ) :
    Bool × Option TaskDict × σ × TaskqService :=
  match fetch_random_task_from_queue G queue_service queue_name g with
  | (none, g') => (false, none, g', queue_service)
  | (some task, g') =>
      match task.name with
      | none => (false, none, g', queue_service)
      | some nm =>
          if nm = "" then (false, none, g', queue_service)
          else (true, some task, g', deleteTask (effect task queue_service) queue_name nm)

/-- The inner `while not task_ran and processed_queue_count < queue_count`
loop of `run_random`, structurally recursive on
`queue_count - processed_queue_count`.  Returns whether a task ran, the
executed task, and the updated generator and service states. -/
def runRandomInner {σ : Type} (G : RandGen σ) (effect : ExecEffect)
    (queues : List QueueDesc) (queue_count : Nat) :
    Nat → Nat → QueueDesc → σ → TaskqService → Bool × Option TaskDict × σ × TaskqService
  | 0, _, _, g, st => (false, none, g, st)
  | remaining + 1, queue_index, queue_desc, g, st =>
      if queue_desc.mode = some "push" then
        let r := run_random_task_from_queue G effect st queue_desc.name g
        if r.1 then r
        else
          runRandomInner G effect queues queue_count remaining (queue_index + 1)
            (queues.getD ((queue_index + 1) % queue_count) junkDesc) r.2.2.1 r.2.2.2
      else
        runRandomInner G effect queues queue_count remaining (queue_index + 1)
          (queues.getD ((queue_index + 1) % queue_count) junkDesc) g st

/-- The outer `while num_processed < max_tasks` loop of `run_random`,
structurally recursive on `max_tasks - num_processed`. -/
def runRandomOuter {σ : Type} (G : RandGen σ) (effect : ExecEffect)
    (queues : List QueueDesc) (queue_count : Nat) :
    Nat → σ → TaskqService → Nat × List TaskDict × σ × TaskqService
  | 0, g, st => (0, [], g, st)
  | remaining + 1, g, st =>
      let pick := G.randrange queue_count g
      let inner := runRandomInner G effect queues queue_count queue_count pick.1
        (queues.getD pick.1 junkDesc) pick.2 st
      if inner.1 then
        let rest := runRandomOuter G effect queues queue_count remaining inner.2.2.1 inner.2.2.2
        (rest.1 + 1, inner.2.1.toList ++ rest.2.1, rest.2.2)
      else
        (0, [], inner.2.2.1, inner.2.2.2)

/-- `run_random(queue_service, queues, random_seed=123, max_tasks=100)`:
returns `num_processed`, the executed-task trace and the final service. -/
def run_random {σ : Type} (G : RandGen σ) (effect : ExecEffect)
    (queue_service : TaskqService) (queues : List QueueDesc)
    (random_seed : Nat) (max_tasks : Nat) : Nat × List TaskDict × TaskqService :=
  if queues.isEmpty then (0, [], queue_service)
  else
    let g := G.seedFn random_seed
    let r := runRandomOuter G effect queues queues.length max_tasks g queue_service
    (r.1, r.2.1, r.2.2.2)

/-- The per-process request-scoped state touched by `_execute_task`:
`os.environ['REQUEST_ID_HASH']` (absent when `none`) and the furious
request-local context state. -/
structure ProcState where
  request_id_hash : Option String
  context : List String
deriving DecidableEq, Repr

/-- Modelled from the spec: `_clear_context` from `furious.context._local`
(repository code not under `src/`) is the Request-Scope Context
collaborator's clear-all-state operation — it empties all request-scoped
context state. -/
def clearContext (ps : ProcState) : ProcState :=
  { ps with context := [] }

/-- The external `process_async_task(headers, body)` entry point: may read
and write the request-scoped state and returns `(return_code, func_path)`. -/
def Processor : Type :=
  List (String × String) → String → ProcState → ProcState × (Int × String)

/-- `_execute_task(task)`: set a fresh `REQUEST_ID_HASH`, decode the body
(`task['body']`, KeyError when absent), call `process_async_task`, then
`_clear_context()` and delete `REQUEST_ID_HASH` (KeyError when the entry is
gone).  `none` models a raised KeyError. -/
def execute_task (process_async_task : Processor) (b64decode : String → String)
    (fresh_uuid : String) (task : TaskDict) (ps : ProcState) :
    Option (ProcState × Int × String) :=
  let ps1 := { ps with request_id_hash := some fresh_uuid }
  match task.body with
  | none => none
  | some b =>
      let body := b64decode b
      let r := process_async_task task.headers body ps1
      let ps3 := clearContext r.1
      match ps3.request_id_hash with
      | none => none
      | some _ => some ({ ps3 with request_id_hash := none }, r.2)

/-! ### Concrete sample values used to instantiate theorems with hypotheses -/

/-- A sample named task. -/
def sampleTask (n : String) : TaskDict :=
  { name := some n, body := some "Ym9keQ==", payload := none,
    headers := [("X-AppEngine-TaskName", n)], method := some "POST", url := some "/work" }

/-- A sample service with one push queue holding three tasks. -/
def sampleService : TaskqService :=
  { queues := [{ name := "default", mode := some "push" }],
    contents := [("default", [sampleTask "a", sampleTask "b", sampleTask "c"])] }

/-- An execution effect that enqueues nothing: the queue service is left
untouched by the task processor. -/
def idEffect : ExecEffect := fun _ st => st

/-- A concrete deterministic generator instance. -/
def natGen : RandGen Nat where
  seedFn := fun n => n
  randrange := fun n s => (if n = 0 then 0 else s % n, s + 1)
  randrange_lt := fun n s h => by
    have hne : n ≠ 0 := Nat.pos_iff_ne_zero.mp h
    simpa [hne] using Nat.mod_lt s h

/-- A sample service whose only queue is pull-mode. -/
def samplePullService : TaskqService :=
  { queues := [{ name := "backlog", mode := some "pull" }],
    contents := [("backlog", [sampleTask "x"])] }

/-- A task whose `name` value is the empty string (falsy in Python). -/
def namelessTask : TaskDict :=
  { name := some "", body := some "Ym9keQ==", payload := none, headers := [],
    method := some "POST", url := none }

/-- A push queue holding only `namelessTask`. -/
def namelessService : TaskqService :=
  { queues := [{ name := "q", mode := some "push" }],
    contents := [("q", [namelessTask])] }

/-- A dict-form task with a `payload` key, for the pull-queue branch. -/
def samplePullDict : TaskDict :=
  { name := some "p1", body := none, payload := some "PAY", headers := [],
    method := none, url := some "/pull" }

/-- A service with a pull queue and a push queue, both empty. -/
def sampleAddService : TaskqService :=
  { queues := [{ name := "pullq", mode := some "pull" },
               { name := "default", mode := some "push" }],
    contents := [] }

/-- A sample `task_dict` argument for `add_tasks`. -/
def sampleTaskDictArg : List (String × List TaskItem) :=
  [("pullq", [TaskItem.dict samplePullDict]),
   ("default",
    [TaskItem.native { payload := "P", name := some "n", method := some "POST", url := none },
     TaskItem.dict (sampleTask "d")])]

/-- A task processor that leaves the request-scoped state alone. -/
def sampleProcessor : Processor := fun _ _ ps => (ps, (200, "example.function"))

/-! ### Helper lemmas about the association-list service state -/

theorem find?_setEntry_self (c : List (String × List TaskDict)) (q : String)
    (ts : List TaskDict) :
    (setEntry c q ts).find? (fun p => p.1 = q) = some (q, ts) := by
  induction c with
  | nil => simp [setEntry]
  | cons hd rest ih =>
      obtain ⟨k, v⟩ := hd
      by_cases hk : k = q
      · subst hk
        simp [setEntry, List.find?]
      · simp only [setEntry, if_neg hk]
        rw [List.find?_cons_of_neg _ (by simp [hk])]
        exact ih

theorem find?_setEntry_other (c : List (String × List TaskDict)) (q q' : String)
    (ts : List TaskDict) (h : q' ≠ q) :
    (setEntry c q ts).find? (fun p => p.1 = q') = c.find? (fun p => p.1 = q') := by
  induction c with
  | nil => simp [setEntry, List.find?, Ne.symm h]
  | cons hd rest ih =>
      obtain ⟨k, v⟩ := hd
      by_cases hk : k = q
      · subst hk
        rw [setEntry, if_pos rfl]
        rw [List.find?_cons_of_neg _ (by simp [Ne.symm h]),
            List.find?_cons_of_neg _ (by simp [Ne.symm h])]
      · rw [setEntry, if_neg hk]
        by_cases hk' : k = q'
        · subst hk'
          rw [List.find?_cons_of_pos _ (by simp), List.find?_cons_of_pos _ (by simp)]
        · rw [List.find?_cons_of_neg _ (by simp [hk']), List.find?_cons_of_neg _ (by simp [hk'])]
          exact ih

theorem getTasks_flushQueue_self (st : TaskqService) (q : String) :
    getTasks (flushQueue st q) q = [] := by
  simp [getTasks, flushQueue, find?_setEntry_self]

theorem getTasks_flushQueue_other (st : TaskqService) (q q' : String) (h : q' ≠ q) :
    getTasks (flushQueue st q) q' = getTasks st q' := by
  simp [getTasks, flushQueue, find?_setEntry_other st.contents q q' [] h]

theorem getTasks_deleteTask_self (st : TaskqService) (q nm : String) :
    getTasks (deleteTask st q nm) q =
      (getTasks st q).filter (fun t => ¬ t.name = some nm) := by
  simp [getTasks, deleteTask, find?_setEntry_self]

theorem getD_mem_of_lt {α : Type} (l : List α) (n : Nat) (d : α) (h : n < l.length) :
    l.getD n d ∈ l := by
  rw [List.getD_eq_getElem?_getD, List.getElem?_eq_getElem h]
  simp [List.getElem_mem]

theorem getD_mem_or_eq {α : Type} (l : List α) (n : Nat) (d : α) :
    l.getD n d ∈ l ∨ l.getD n d = d := by
  by_cases h : n < l.length
  · exact Or.inl (getD_mem_of_lt l n d h)
  · right
    rw [List.getD_eq_getElem?_getD, List.getElem?_eq_none (by omega)]
    rfl

/-! ### Helper lemmas about the drain engine -/

theorem run_queue_foldl (effect : ExecEffect) (tasks : List TaskDict) :
    ∀ (n : Nat) (tr : List TaskDict) (st : TaskqService),
      tasks.foldl (fun acc task => (acc.1 + 1, acc.2.1 ++ [task], effect task acc.2.2))
          (n, tr, st) =
        (n + tasks.length, tr ++ tasks, execList effect tasks st) := by
  induction tasks with
  | nil => intro n tr st; simp [execList]
  | cons t rest ih =>
      intro n tr st
      simp only [List.foldl, ih (n + 1) (tr ++ [t]) (effect t st)]
      simp [execList, List.length_cons]
      omega

theorem run_queue_eq (effect : ExecEffect) (st : TaskqService) (q : String) :
    run_queue effect st q =
      ((getTasks st q).length, getTasks st q,
        execList effect (getTasks st q) (flushQueue st q)) := by
  simp [run_queue, run_queue_foldl]

theorem purgeGo_spec (qs : List String) (hnd : qs.Nodup) :
    ∀ (n : Nat) (st : TaskqService),
      (purgeGo qs (n, st)).1 = n + (qs.map (fun q => (getTasks st q).length)).sum
      ∧ (∀ q ∈ qs, getTasks (purgeGo qs (n, st)).2 q = [])
      ∧ (∀ q, q ∉ qs → getTasks (purgeGo qs (n, st)).2 q = getTasks st q) := by
  induction qs with
  | nil => intro n st; simp [purgeGo]
  | cons q0 rest ih =>
      intro n st
      obtain ⟨hq0, hrest⟩ := List.nodup_cons.mp hnd
      have ihx := ih hrest (n + (getTasks st q0).length) (flushQueue st q0)
      refine ⟨?_, ?_, ?_⟩
      · rw [purgeGo]
        rw [ihx.1]
        have hmap : rest.map (fun q => (getTasks (flushQueue st q0) q).length) =
            rest.map (fun q => (getTasks st q).length) := by
          apply List.map_congr_left
          intro q hq
          rw [getTasks_flushQueue_other st q0 q (fun he => hq0 (he ▸ hq))]
        rw [hmap]
        simp [List.sum_cons]
        omega
      · intro q hq
        rw [purgeGo]
        rcases List.mem_cons.mp hq with h0 | hr
        · subst h0
          rw [ihx.2.2 q hq0, getTasks_flushQueue_self]
        · exact ihx.2.1 q hr
      · intro q hq
        rw [purgeGo]
        have hq' : q ∉ rest := fun h => hq (List.mem_cons_of_mem _ h)
        have hqq0 : q ≠ q0 := fun he => hq (he ▸ List.mem_cons_self _ _)
        rw [ihx.2.2 q hq', getTasks_flushQueue_other st q0 q hqq0]

/-! ### Helper lemmas about the random sampler -/

theorem runRandomOuter_le {σ : Type} (G : RandGen σ) (effect : ExecEffect)
    (queues : List QueueDesc) (queue_count : Nat) :
    ∀ (remaining : Nat) (g : σ) (st : TaskqService),
      (runRandomOuter G effect queues queue_count remaining g st).1 ≤ remaining := by
  intro remaining
  induction remaining with
  | zero => intro g st; simp [runRandomOuter]
  | succ r ih =>
      intro g st
      rw [runRandomOuter]
      split
      · have h := ih (runRandomInner G effect queues queue_count queue_count
          (G.randrange queue_count g).1
          (queues.getD (G.randrange queue_count g).1 junkDesc)
          (G.randrange queue_count g).2 st).2.2.1
          (runRandomInner G effect queues queue_count queue_count
          (G.randrange queue_count g).1
          (queues.getD (G.randrange queue_count g).1 junkDesc)
          (G.randrange queue_count g).2 st).2.2.2
        simpa using Nat.succ_le_succ h
      · simp

theorem runRandomInner_no_push {σ : Type} (G : RandGen σ) (effect : ExecEffect)
    (queues : List QueueDesc) (queue_count : Nat)
    (hq : ∀ qd ∈ queues, ¬ qd.mode = some "push") :
    ∀ (remaining queue_index : Nat) (queue_desc : QueueDesc) (g : σ) (st : TaskqService),
      (queue_desc ∈ queues ∨ queue_desc = junkDesc) →
      runRandomInner G effect queues queue_count remaining queue_index queue_desc g st =
        (false, none, g, st) := by
  intro remaining
  induction remaining with
  | zero => intro _ _ _ _ _; rfl
  | succ r ih =>
      intro queue_index queue_desc g st hd
      have hmode : ¬ queue_desc.mode = some "push" := by
        rcases hd with hmem | hj
        · exact hq _ hmem
        · subst hj; simp [junkDesc]
      rw [runRandomInner, if_neg hmode]
      exact ih (queue_index + 1) _ g st
        (getD_mem_or_eq queues ((queue_index + 1) % queue_count) junkDesc)

theorem execList_id (tasks : List TaskDict) (st : TaskqService) :
    execList (fun _ s => s) tasks st = st := by
  induction tasks generalizing st with
  | nil => rfl
  | cons t rest ih => simp only [execList, List.foldl_cons]; exact ih st

theorem runLoopAux_not_go (effect : ExecEffect) (qnames : List String)
    (maxIt : Option Nat) (fuel iterations tasks : Nat) (trace : List TaskDict)
    (st : TaskqService) :
    runLoopAux effect qnames maxIt fuel iterations tasks trace st false =
      some (iterations, tasks, trace, st) := by
  cases fuel <;> rfl

theorem runLoopAux_step (effect : ExecEffect) (qnames : List String)
    (maxIt : Option Nat) (fuel iterations tasks : Nat) (trace : List TaskDict)
    (st : TaskqService) :
    runLoopAux effect qnames maxIt (fuel + 1) iterations tasks trace st true =
      (if maxItReached maxIt (iterations + 1) then
        some (iterations + 1, tasks + (_run effect st qnames).1,
          trace ++ (_run effect st qnames).2.1, (_run effect st qnames).2.2)
      else
        runLoopAux effect qnames maxIt fuel (iterations + 1)
          (tasks + (_run effect st qnames).1) (trace ++ (_run effect st qnames).2.1)
          (_run effect st qnames).2.2 (decide ((_run effect st qnames).1 ≠ 0))) := rfl

theorem run_none_eq (effect : ExecEffect) (st : TaskqService) (maxIt : Option Nat)
    (fuel : Nat) (go : Bool)
    (hgo : go = (match maxIt with | none => true | some m => decide (0 < m))) :
    run effect st none maxIt fuel =
      runLoopAux effect (get_push_queue_names st) maxIt fuel 0 0 [] st go := by
  subst hgo
  rfl

/-! ### Claim theorems -/

/-- Claim C1: for every queue name, `run_queue` first fetches the list of
currently pending tasks, then clears the queue before executing any task,
then executes each fetched task sequentially (starting from the flushed
state), and returns the number of fetched tasks; the executed trace is
exactly the pre-call snapshot, so a task enqueued during the execution
phase is not part of the snapshot and is not executed by this invocation. -/
theorem run_queue_snapshot_then_clear_then_execute (effect : ExecEffect)
    (st : TaskqService) (q : String) :
    (run_queue effect st q).1 = (getTasks st q).length
    ∧ (run_queue effect st q).2.1 = getTasks st q
    ∧ (run_queue effect st q).2.2 = execList effect (getTasks st q) (flushQueue st q)
    ∧ ∀ t, t ∈ (run_queue effect st q).2.1 → t ∈ getTasks st q := by
  rw [run_queue_eq]
  exact ⟨rfl, rfl, rfl, fun t ht => ht⟩

/-- Claim C2: for every service state, `run` with `max_iterations = 0`
executes no task (empty trace), leaves every queue unchanged (final state is
the input state), and returns `iterations = 0`, `tasks_processed = 0`. -/
theorem run_max_iterations_zero (effect : ExecEffect) (st : TaskqService)
    (queue_names : Option (List String)) (fuel : Nat) :
    run effect st queue_names (some 0) fuel = some (0, 0, [], st) := by
  cases queue_names with
  | none => exact runLoopAux_not_go effect (get_push_queue_names st) (some 0) fuel 0 0 [] st
  | some qs =>
      cases qs with
      | nil => exact runLoopAux_not_go effect (get_push_queue_names st) (some 0) fuel 0 0 [] st
      | cons q rest =>
          exact runLoopAux_not_go effect (q :: rest) (some 0) fuel 0 0 [] st

/-- Claim C8: `purge_tasks` over distinct queue names returns the sum of
their pending-task counts, leaves each of those queues empty, leaves every
other queue unchanged, and executes nothing (it never calls the task
executor: its result does not involve any execution effect). -/
theorem purge_tasks_counts_and_flushes (st : TaskqService) (qs : List String)
    (hne : qs ≠ []) (hnd : qs.Nodup) :
    (purge_tasks st (some qs)).1 = (qs.map (fun q => (getTasks st q).length)).sum
    ∧ (∀ q ∈ qs, getTasks (purge_tasks st (some qs)).2 q = [])
    ∧ (∀ q, q ∉ qs → getTasks (purge_tasks st (some qs)).2 q = getTasks st q) := by
  obtain ⟨q0, rest, rfl⟩ := List.exists_cons_of_ne_nil hne
  have h := purgeGo_spec (q0 :: rest) hnd 0 st
  simpa [purge_tasks] using h

/-- Witness for C8 at a concrete service: purging the single queue
`"default"` holding three tasks returns 3 and empties it. -/
theorem purge_tasks_counts_and_flushes_witness :
    (purge_tasks sampleService (some ["default"])).1 =
      (["default"].map (fun q => (getTasks sampleService q).length)).sum
    ∧ getTasks (purge_tasks sampleService (some ["default"])).2 "default" = [] := by
  have h := purge_tasks_counts_and_flushes sampleService ["default"] (by decide) (by decide)
  exact ⟨h.1, h.2.1 "default" (by decide)⟩

/-- Claim C10: `run`, `get_tasks` and `purge_tasks` treat an empty
`queue_names` list exactly like an omitted argument: with `[]` they fall
back to all push-mode queues (`run`) or all queues (`get_tasks`,
`purge_tasks`), exactly as with `None`. -/
theorem empty_queue_names_like_omitted (effect : ExecEffect) (st : TaskqService)
    (max_iterations : Option Nat) (fuel : Nat) :
    run effect st (some []) max_iterations fuel = run effect st none max_iterations fuel
    ∧ get_tasks st (some []) = get_tasks st none
    ∧ purge_tasks st (some []) = purge_tasks st none
    ∧ get_tasks st (some []) = get_tasks st (some (get_queue_names st))
    ∧ purge_tasks st (some []) = purge_tasks st (some (get_queue_names st))
    ∧ run effect st (some []) max_iterations fuel =
        run effect st (some (get_push_queue_names st)) max_iterations fuel := by
  refine ⟨rfl, rfl, rfl, ?_, ?_, ?_⟩
  · cases hq : get_queue_names st with
    | nil => simp [get_tasks, hq]
    | cons a l => simp [get_tasks, hq]
  · cases hq : get_queue_names st with
    | nil => simp [purge_tasks, hq]
    | cons a l => simp [purge_tasks, hq]
  · cases hq : get_push_queue_names st with
    | nil => simp [run, hq]
    | cons a l => simp [run, hq]

/-- Claim C7: if the service has exactly one push queue `"default"`
containing 3 tasks and no executed task enqueues anything (identity
execution effect), then `run` with default arguments returns
`iterations = 2`, `tasks_processed = 3`: the first iteration drains the 3
tasks and a second iteration finds zero and stops, the empty final pass
being counted in `iterations`. -/
theorem run_drains_three_tasks (st : TaskqService) (t1 t2 t3 : TaskDict) (fuel : Nat)
    (hq : get_push_queue_names st = ["default"])
    (ht : getTasks st "default" = [t1, t2, t3])
    (hf : 2 ≤ fuel) :
    run (fun _ s => s) st none none fuel =
      some (2, 3, [t1, t2, t3], flushQueue (flushQueue st "default") "default") := by
  obtain ⟨f, rfl⟩ : ∃ f, fuel = f + 2 := ⟨fuel - 2, by omega⟩
  have h1 : _run (fun _ s => s) st ["default"] = (3, [t1, t2, t3], flushQueue st "default") := by
    simp [_run, run_queue_eq, ht, execList_id]
  have h2 : _run (fun _ s => s) (flushQueue st "default") ["default"] =
      (0, [], flushQueue (flushQueue st "default") "default") := by
    simp [_run, run_queue_eq, getTasks_flushQueue_self, execList_id]
  rw [run_none_eq (fun _ s => s) st none (f + 2) true rfl, hq]
  rw [show f + 2 = (f + 1) + 1 from rfl, runLoopAux_step, h1]
  simp only [maxItReached, Bool.false_eq_true, if_false]
  simp only [Nat.zero_add, List.nil_append, show decide ((3:Nat) ≠ 0) = true from rfl]
  rw [runLoopAux_step, h2]
  simp only [maxItReached, Bool.false_eq_true, if_false]
  simp only [Nat.add_zero, List.append_nil, show decide ((0:Nat) ≠ 0) = false from rfl]
  exact runLoopAux_not_go _ _ _ _ _ _ _ _

/-- Witness for C7 at the concrete sample service. -/
theorem run_drains_three_tasks_witness :
    run (fun _ s => s) sampleService none none 2 =
      some (2, 3, [sampleTask "a", sampleTask "b", sampleTask "c"],
        flushQueue (flushQueue sampleService "default") "default") :=
  run_drains_three_tasks sampleService (sampleTask "a") (sampleTask "b") (sampleTask "c") 2
    (by decide) (by decide) (by decide)

/-- When the queue is nonempty, `_fetch_random_task_from_queue` returns the
task at the `randrange`-drawn index, advancing the generator. -/
theorem fetch_nonempty {σ : Type} (G : RandGen σ) (st : TaskqService) (q : String) (g : σ)
    (hne : getTasks st q ≠ []) :
    fetch_random_task_from_queue G st q g =
      (some ((getTasks st q).getD (G.randrange (getTasks st q).length g).1 junkTask),
       (G.randrange (getTasks st q).length g).2) := by
  rw [fetch_random_task_from_queue]
  rw [if_neg (by simp [hne])]

/-- Claim C5 (amended): when the tried queue has at least one pending task,
the task chosen by the pseudo-random generator among the currently pending
tasks is, when its name is truthy (present and nonempty), executed and then
deleted from the queue by its name identifier, not by position; the chosen
task is one of the queue's pending tasks. -/
theorem run_random_task_named_spec {σ : Type} (G : RandGen σ) (effect : ExecEffect)
    (st : TaskqService) (q : String) (g g' : σ) (i : Nat) (chosen : TaskDict) (nm : String)
    (hne : getTasks st q ≠ [])
    (hr : G.randrange (getTasks st q).length g = (i, g'))
    (hc : (getTasks st q).getD i junkTask = chosen)
    (hn : chosen.name = some nm) (hnm : nm ≠ "") :
    chosen ∈ getTasks st q
    ∧ run_random_task_from_queue G effect st q g =
        (true, some chosen, g', deleteTask (effect chosen st) q nm)
    ∧ getTasks (deleteTask (effect chosen st) q nm) q =
        (getTasks (effect chosen st) q).filter (fun t => ¬ t.name = some nm) := by
  have hlen : 0 < (getTasks st q).length := List.length_pos.mpr hne
  have hi : i < (getTasks st q).length := by
    have hx := G.randrange_lt (getTasks st q).length g hlen
    rw [hr] at hx
    exact hx
  refine ⟨hc ▸ getD_mem_of_lt _ i junkTask hi, ?_, getTasks_deleteTask_self _ q nm⟩
  rw [run_random_task_from_queue, fetch_nonempty G st q g hne, hr, hc]
  simp [hn, hnm]

/-- Counterexample for C5 as stated: a push-mode queue with one pending task
whose `name` value is the falsy empty string.  `_run_random_task_from_queue`
then executes nothing, returns `False`, and leaves the service unchanged,
although the queue is push-mode and nonempty. -/
theorem run_random_task_nameless_counterexample :
    getTasks namelessService "q" ≠ []
    ∧ namelessService.queues.map (fun d => d.mode) = [some "push"]
    ∧ run_random_task_from_queue natGen idEffect namelessService "q" 0 =
        (false, none, 1, namelessService) := by
  refine ⟨by decide, by decide, by decide⟩

/-- Witness for C5 (amended) at a concrete push queue with three named
tasks: the generator picks index 0, so the task named `"a"` is executed and
deleted by name. -/
theorem run_random_task_named_witness :
    sampleTask "a" ∈ getTasks sampleService "default"
    ∧ run_random_task_from_queue natGen idEffect sampleService "default" 0 =
        (true, some (sampleTask "a"), 1,
          deleteTask (idEffect (sampleTask "a") sampleService) "default" "a") := by
  have h := run_random_task_named_spec natGen idEffect sampleService "default" 0 1 0
    (sampleTask "a") "a" (by decide) (by decide) (by decide) (by decide) (by decide)
  exact ⟨h.1, h.2.1⟩

/-- Claim C6: `run_random` always terminates — in this embedding it is a
total structurally recursive function — its return value never exceeds
`max_tasks`, and on a service whose descriptor list contains no push-mode
queue (including the empty list) it executes nothing, leaves the service
unchanged, and returns 0. -/
theorem run_random_bounded_and_total {σ : Type} (G : RandGen σ) (effect : ExecEffect)
    (queue_service : TaskqService) (queues : List QueueDesc) (random_seed max_tasks : Nat) :
    (run_random G effect queue_service queues random_seed max_tasks).1 ≤ max_tasks
    ∧ ((∀ qd ∈ queues, ¬ qd.mode = some "push") →
        run_random G effect queue_service queues random_seed max_tasks =
          (0, [], queue_service)) := by
  constructor
  · rw [run_random]
    split
    · simp
    · exact runRandomOuter_le G effect queues queues.length max_tasks
        (G.seedFn random_seed) queue_service
  · intro hq
    rw [run_random]
    split
    · rfl
    · cases max_tasks with
      | zero => rfl
      | succ r =>
          simp only [runRandomOuter]
          rw [runRandomInner_no_push G effect queues queues.length hq queues.length
            (G.randrange queues.length (G.seedFn random_seed)).1
            (queues.getD (G.randrange queues.length (G.seedFn random_seed)).1 junkDesc)
            (G.randrange queues.length (G.seedFn random_seed)).2 queue_service
            (getD_mem_or_eq queues (G.randrange queues.length (G.seedFn random_seed)).1 junkDesc)]
          rfl

/-- Witness for C6 at a concrete service with one pull queue and no push
queues: the sampler returns 0 and changes nothing. -/
theorem run_random_bounded_witness :
    (run_random natGen idEffect samplePullService samplePullService.queues 5 10).1 ≤ 10
    ∧ run_random natGen idEffect samplePullService samplePullService.queues 5 10 =
        (0, [], samplePullService) := by
  have h := run_random_bounded_and_total natGen idEffect samplePullService
    samplePullService.queues 5 10
  exact ⟨h.1, h.2 (by decide)⟩

/-- Claim C3: `run_random` is deterministic: two runs with the same
generator, seed, queue-descriptor sequence, `max_tasks`, initial queue
contents and identically-behaving execution effect produce the same sequence
of executed task identifiers and the same processed count. -/
theorem run_random_deterministic {σ : Type} (G : RandGen σ)
    (effect1 effect2 : ExecEffect) (st1 st2 : TaskqService)
    (qs1 qs2 : List QueueDesc) (seed1 seed2 max1 max2 : Nat)
    (hseed : seed1 = seed2) (hqs : qs1 = qs2) (hmax : max1 = max2)
    (hst : st1 = st2) (heff : effect1 = effect2) :
    (run_random G effect1 st1 qs1 seed1 max1).2.1.map (fun t => t.name) =
      (run_random G effect2 st2 qs2 seed2 max2).2.1.map (fun t => t.name)
    ∧ (run_random G effect1 st1 qs1 seed1 max1).1 =
      (run_random G effect2 st2 qs2 seed2 max2).1 := by
  subst hseed
  subst hqs
  subst hmax
  subst hst
  subst heff
  exact ⟨rfl, rfl⟩

/-- Witness for C3: two identically-parameterised concrete runs agree. -/
theorem run_random_deterministic_witness :
    (run_random natGen idEffect sampleService sampleService.queues 123 100).2.1.map
        (fun t => t.name) =
      (run_random natGen idEffect sampleService sampleService.queues 123 100).2.1.map
        (fun t => t.name)
    ∧ (run_random natGen idEffect sampleService sampleService.queues 123 100).1 =
      (run_random natGen idEffect sampleService sampleService.queues 123 100).1 :=
  run_random_deterministic natGen idEffect idEffect sampleService sampleService
    sampleService.queues sampleService.queues 123 123 100 100 rfl rfl rfl rfl rfl

theorem tasksToAdd_spec (b64 : String → String) (is_pullqueue : Bool) :
    ∀ (items : List TaskItem) (ts : List Task),
      tasksToAdd b64 is_pullqueue items = some ts →
      List.Forall₂ (fun it t => formatItem b64 is_pullqueue it = some t) items ts
      ∧ ts.length = items.length := by
  intro items
  induction items with
  | nil =>
      intro ts h
      rw [tasksToAdd] at h
      obtain rfl : ([] : List Task) = ts := Option.some.inj h
      exact ⟨List.Forall₂.nil, rfl⟩
  | cons it rest ih =>
      intro ts h
      rw [tasksToAdd] at h
      cases hf : formatItem b64 is_pullqueue it with
      | none => rw [hf] at h; exact absurd h (by simp)
      | some t =>
          rw [hf] at h
          cases hr : tasksToAdd b64 is_pullqueue rest with
          | none => rw [hr] at h; exact absurd h (by simp)
          | some ts2 =>
              rw [hr] at h
              obtain rfl : t :: ts2 = ts := Option.some.inj h
              obtain ⟨h1, h2⟩ := ih ts2 hr
              exact ⟨List.Forall₂.cons hf h1, by simp [h2]⟩

theorem addTasksGo_spec (b64 : String → String) (descs : List QueueDesc) :
    ∀ (td : List (String × List TaskItem)) (acc n : Nat) (out : List (String × List Task)),
      addTasksGo b64 descs td acc = some (n, out) →
      n = acc + (td.map (fun p => p.2.length)).sum
      ∧ List.Forall₂ (fun (p : String × List TaskItem) (r : String × List Task) =>
          r.1 = p.1 ∧ ∃ d, queueDescDict descs p.1 = some d ∧ ∃ m, d.mode = some m ∧
            List.Forall₂ (fun it t => formatItem b64 (decide (m = "pull")) it = some t) p.2 r.2)
          td out := by
  intro td
  induction td with
  | nil =>
      intro acc n out h
      rw [addTasksGo] at h
      obtain ⟨h1, h2⟩ : acc = n ∧ ([] : List (String × List Task)) = out := by
        simpa using h
      subst h1
      subst h2
      exact ⟨by simp, List.Forall₂.nil⟩
  | cons p rest ih =>
      obtain ⟨qn, tasks⟩ := p
      intro acc n out h
      rw [addTasksGo] at h
      split at h
      · exact absurd h (by simp)
      · rename_i desc hd
        split at h
        · exact absurd h (by simp)
        · rename_i m hm
          split at h
          · exact absurd h (by simp)
          · rename_i ts ht
            obtain ⟨r0, hg, hout⟩ := Option.map_eq_some'.mp h
            obtain ⟨n0, out0⟩ := r0
            obtain ⟨he1, he2⟩ : n0 = n ∧ (qn, ts) :: out0 = out := by
              simpa using hout
            obtain ⟨hta, hlen⟩ := tasksToAdd_spec b64 (decide (m = "pull")) tasks ts ht
            obtain ⟨ihn, ihf⟩ := ih (if ts.isEmpty then acc else acc + ts.length) n0 out0 hg
            have hacc : (if ts.isEmpty then acc else acc + ts.length) =
                acc + tasks.length := by
              by_cases he : ts.isEmpty = true
              · have h0 : ts = [] := List.isEmpty_iff.mp he
                subst h0
                simp only [List.length_nil] at hlen
                simp [he, ← hlen]
              · simp [he, hlen]
            constructor
            · rw [← he1, ihn, hacc]
              simp [List.sum_cons]
              omega
            · rw [← he2]
              exact List.Forall₂.cons ⟨rfl, desc, hd, m, hm, hta⟩ ihf

/-- Claim C4: on success `add_tasks` returns the total number of tasks
enqueued across all queues (one per input item); per queue the enqueued
tasks correspond one-to-one to the input items under the queue's mode,
native tasks passing through unchanged, and dict tasks being rebuilt with
payload taken from the `payload` field when present and otherwise from the
base64-decoded `body` field, with method `PULL` and the dict's url on
pull-mode queues and the dict's recorded method (and no url) otherwise. -/
theorem add_tasks_spec (b64 : String → String) (st : TaskqService)
    (task_dict : List (String × List TaskItem)) (n : Nat)
    (out : List (String × List Task))
    (h : add_tasks b64 st task_dict = some (n, out)) :
    n = (task_dict.map (fun p => p.2.length)).sum
    ∧ List.Forall₂ (fun (p : String × List TaskItem) (r : String × List Task) =>
        r.1 = p.1 ∧ ∃ d, queueDescDict st.queues p.1 = some d ∧ ∃ m, d.mode = some m ∧
          List.Forall₂ (fun it t => formatItem b64 (decide (m = "pull")) it = some t) p.2 r.2)
        task_dict out
    ∧ (∀ (ip : Bool) (t : Task), formatItem b64 ip (TaskItem.native t) = some t)
    ∧ (∀ (ip : Bool) (d : TaskDict) (p : String), d.payload = some p →
        formatTaskFromDict b64 ip d = some
          (if ip then { payload := p, name := d.name, method := some "PULL", url := d.url }
           else { payload := p, name := d.name, method := d.method, url := none }))
    ∧ (∀ (ip : Bool) (d : TaskDict) (b : String), d.payload = none → d.body = some b →
        formatTaskFromDict b64 ip d = some
          (if ip then { payload := b64 b, name := d.name, method := some "PULL", url := d.url }
           else { payload := b64 b, name := d.name, method := d.method, url := none })) := by
  obtain ⟨h1, h2⟩ := addTasksGo_spec b64 st.queues task_dict 0 n out h
  refine ⟨by simpa using h1, h2, fun ip t => rfl, ?_, ?_⟩
  · intro ip d p hp
    cases ip <;> simp [formatTaskFromDict, hp]
  · intro ip d b hp hb
    cases ip <;> simp [formatTaskFromDict, hp, hb]

/-- Witness for C4 at a concrete service and task dict: one dict-form task
re-added to a pull queue and a native task plus a dict-form task re-added to
a push queue; three tasks total are enqueued. -/
theorem add_tasks_spec_witness :
    add_tasks (fun s => s) sampleAddService sampleTaskDictArg =
      some (3,
        [("pullq",
          [{ payload := "PAY", name := some "p1", method := some "PULL",
             url := some "/pull" }]),
         ("default",
          [{ payload := "P", name := some "n", method := some "POST", url := none },
           { payload := "Ym9keQ==", name := some "d", method := some "POST",
             url := none }])])
    ∧ 3 = (sampleTaskDictArg.map (fun p => p.2.length)).sum := by
  have he : add_tasks (fun s => s) sampleAddService sampleTaskDictArg =
      some (3,
        [("pullq",
          [{ payload := "PAY", name := some "p1", method := some "PULL",
             url := some "/pull" }]),
         ("default",
          [{ payload := "P", name := some "n", method := some "POST", url := none },
           { payload := "Ym9keQ==", name := some "d", method := some "POST",
             url := none }])]) := rfl
  exact ⟨he, (add_tasks_spec (fun s => s) sampleAddService sampleTaskDictArg 3 _ he).1⟩

/-- Claim C9: `_execute_task` establishes a fresh request-scoped identifier
(`REQUEST_ID_HASH`) before invoking the task processor and, after the
processor call, clears the request-scoped context and removes the
identifier, so that after the call the request-scoped state is the absent
state (identifier unset, context empty) — in particular equal to the
pre-call state whenever that was the absent state — and no state leaks into
the next sequentially executed task.  The hypothesis `hid` is the external
processor contract that it does not itself unset the identifier (else the
final `del os.environ` would raise). -/
theorem execute_task_isolation (process_async_task : Processor) (b64decode : String → String)
    (fresh_uuid : String) (task : TaskDict) (ps : ProcState) (b : String)
    (hb : task.body = some b)
    (hid : ∀ h bd s, ((process_async_task h bd s).1).request_id_hash = s.request_id_hash) :
    execute_task process_async_task b64decode fresh_uuid task ps =
      some ({ request_id_hash := none, context := [] },
        (process_async_task task.headers (b64decode b)
          { ps with request_id_hash := some fresh_uuid }).2)
    ∧ (ps = { request_id_hash := none, context := [] } →
        (execute_task process_async_task b64decode fresh_uuid task ps).map (fun r => r.1) =
          some ps) := by
  have h1 : execute_task process_async_task b64decode fresh_uuid task ps =
      some ({ request_id_hash := none, context := [] },
        (process_async_task task.headers (b64decode b)
          { ps with request_id_hash := some fresh_uuid }).2) := by
    rw [execute_task, hb]
    simp [clearContext, hid]
  exact ⟨h1, fun hps => by rw [h1, hps]; rfl⟩

/-- Witness for C9 with a concrete processor that leaves the request-scoped
state alone: starting from the absent state, execution returns to it. -/
theorem execute_task_isolation_witness :
    execute_task sampleProcessor (fun s => s) "req-1" (sampleTask "a")
        { request_id_hash := none, context := [] } =
      some ({ request_id_hash := none, context := [] },
        (sampleProcessor (sampleTask "a").headers "Ym9keQ=="
          { request_id_hash := some "req-1", context := [] }).2) := by
  have h := execute_task_isolation sampleProcessor (fun s => s) "req-1" (sampleTask "a")
    { request_id_hash := none, context := [] } "Ym9keQ==" rfl (fun _ _ _ => rfl)
  exact h.1

end Furious
